import Mathlib

/-!
Shallow embedding of the `mapmaker` package (`__init__.py`): montage assembly
(`montage`), physical-extent computation (`calc_extent`), tile-stack loading
(`load_stack`), and the location-overlay portion of `make_fig` / `make_rec`.

Numpy arrays are modelled in C (row-major) order: an array is a shape together
with a flat data function `Nat → ℤ`; `reshape` keeps the flat data and changes
only the shape, and `rollaxis` permutes the index decoding.  Physical
coordinates (micrometers) are modelled with `ℚ`; the Python floats in play are
decimal literals and the claims are about exact index/affine arithmetic, so
rational arithmetic is the faithful idealization.  The filesystem interface of
`load_stack` (`glob.glob` per channel pattern) is abstracted as a function
`Nat → List String` giving the matching file names for each channel index.
-/

/-- C-order flat index into a 4D array of shape `(c, nt, ny, nx)`. -/
def idx4 (nt ny nx ch t i j : Nat) : Nat := ((ch * nt + t) * ny + i) * nx + j

/-- C-order flat index into a 5D array of shape `(c, dy, dx, ny, nx)`. -/
def idx5 (dy dx ny nx ch r co i j : Nat) : Nat := (((ch * dy + r) * dx + co) * ny + i) * nx + j

/-- C-order flat index into a 3D array of shape `(c, h, w)`. -/
def idx3 (h w ch yy xx : Nat) : Nat := (ch * h + yy) * w + xx

/-- A numpy `ndarray`: a shape and a C-order flat data function. -/
structure NDArray where
  shape : List Nat
  data : Nat → ℤ

/-- Flat data of `np.rollaxis(A, 2, 4)` for `A` of shape `(c, dy, dx, ny, nx)`:
the result has shape `(c, dy, ny, dx, nx)` and its element at `(ch, r, i, co, j)`
is `A`'s element at `(ch, r, co, i, j)`.  Here the flat index `k` is decoded in
C order over the rolled shape `(c, dy, ny, dx, nx)` and the value is read from
`A`'s flat data at the C-order offset of `(ch, r, co, i, j)`. -/
def rollaxis_2_4 (dy dx ny nx : Nat) (d : Nat → ℤ) : Nat → ℤ := fun k =>
  let j := k % nx
  let k1 := k / nx
  let co := k1 % dx
  let k2 := k1 / dx
  let i := k2 % ny
  let k3 := k2 / ny
  let r := k3 % dy
  let ch := k3 / dy
  d (idx5 dy dx ny nx ch r co i j)

/-- The message of the `assert` in `montage`:
`"Number of tiles, {}, doesn't match montage dimensions ({}, {})".format(ntiles, dy, dx)`. -/
def montageMsg (ntiles dy dx : Nat) : String :=
  "Number of tiles, " ++ toString ntiles ++ ", doesn't match montage dimensions (" ++
    toString dy ++ ", " ++ toString dx ++ ")"

/-- `montage(stack, shape)`: unpack `c, ntiles, ny, nx = stack.shape`; assert
`dy * dx == ntiles` (an `AssertionError` with `montageMsg` otherwise); reshape
to `(c, dy, dx, ny, nx)` (flat data unchanged), `np.rollaxis(_, 2, 4)`, and
reshape to `(c, dy*ny, dx*nx)` (flat data of the rolled array unchanged). -/
def montage (stack : NDArray) (shape : Nat × Nat) : Except String NDArray :=
  match stack.shape with
  | [c, ntiles, ny, nx] =>
      let dy := shape.1
      let dx := shape.2
      if dy * dx = ntiles then
        Except.ok ⟨[c, dy * ny, dx * nx], rollaxis_2_4 dy dx ny nx stack.data⟩
      else
        Except.error (montageMsg ntiles dy dx)
  | _ => Except.error "cannot unpack stack shape"

/-- `calc_extent(tile0_loc, tile_shape, montage_shape, pixel_size=0.13)`:
`top = y0 + (ny // 2) * pixel_size`, `left = x0 + (nx // 2) * pixel_size`,
`bottom = top - ny*dy*pixel_size`, `right = left - nx*dx*pixel_size`,
returning `(left, right, bottom, top)`.  `ny // 2` is Python floor division,
i.e. `Nat` division here. -/
def calc_extent (tile0_loc : ℚ × ℚ) (tile_shape : Nat × Nat) (montage_shape : Nat × Nat)
    (pixel_size : ℚ := 13/100) : ℚ × ℚ × ℚ × ℚ :=
  let y0 := tile0_loc.1
  let x0 := tile0_loc.2
  let ny := tile_shape.1
  let nx := tile_shape.2
  let ny_tot : Nat := ny * montage_shape.1
  let nx_tot : Nat := nx * montage_shape.2
  let top := y0 + (ny / 2 : Nat) * pixel_size
  let left := x0 + (nx / 2 : Nat) * pixel_size
  let bottom := top - (ny_tot : ℚ) * pixel_size
  let right := left - (nx_tot : ℚ) * pixel_size
  (left, right, bottom, top)

/-- A `matplotlib.pyplot.Rectangle` as `make_rec` builds it: the anchor corner
`xy`, the width, the height and the line width (color/fill are fixed). -/
structure Rectangle where
  xy : ℚ × ℚ
  width : ℚ
  height : ℚ
  linewidth : ℚ

/-- `make_rec(y, x, width, height, linewidth)`: a rectangle anchored at
`(x - width/2, y - height/2)` with the given width and height. -/
def make_rec (y x width height linewidth : ℚ) : Rectangle :=
  ⟨(x - width / 2, y - height / 2), width, height, linewidth⟩

/-- The data of the `ax.annotate` call in `make_fig`: the wrap width passed to
`textwrap.fill`, the data point `xy`, the text anchor `xytext`, and the font
size (rendering options are fixed). -/
structure Annot where
  wrap_width : Nat
  xy : ℚ × ℚ
  xytext : ℚ × ℚ
  fontsize : ℚ

/-- The containment test of `make_fig`:
`xmax, xmin, ymin, ymax = extent` (so `extent = (left, right, bottom, top)`)
and then literally `xmax >= x >= xmin and ymax >= y >= ymin`. -/
def inFrame (extent : ℚ × ℚ × ℚ × ℚ) (y x : ℚ) : Bool :=
  decide (extent.1 ≥ x ∧ x ≥ extent.2.1 ∧ extent.2.2.2 ≥ y ∧ y ≥ extent.2.2.1)

/-- The per-location body of the annotation loop in `make_fig`: with
`diameter = 512 * 0.13`, convert the stored point from millimeters to
micrometers (`y, x = point * 1000`); if the point passes `inFrame`, emit the
marker `make_rec(y, x, diameter, diameter, max(2, 20*scalefactor))` and the
annotation anchored at `xy=(x, y)`, `xytext=(x, y + diameter/2 * 1.3)` with
text `textwrap.fill(title, 20)` and `fontsize=max(12, 120*scalefactor)`;
otherwise emit nothing. -/
def overlay_location (extent : ℚ × ℚ × ℚ × ℚ) (scalefactor : ℚ) (point : ℚ × ℚ) :
    Option (Rectangle × Annot) :=
  let diameter : ℚ := 512 * (13/100)
  let y := point.1 * 1000
  let x := point.2 * 1000
  if inFrame extent y x then
    some (make_rec y x diameter diameter (max 2 (20 * scalefactor)),
          ⟨20, (x, y), (x, y + diameter / 2 * (13/10)), max 12 (120 * scalefactor)⟩)
  else
    none

/-- Python `sorted` on file names (ascending lexicographic, stable). -/
def sortStr (l : List String) : List String := List.insertionSort (fun a b => a ≤ b) l

/-- The channel-probe loop of `load_stack`: `for i in range(100)` collect
`sorted(glob(top_dir + "*ch{i}*.tif"))`, breaking at the first channel index
whose pattern matches no file.  `glob` abstracts `glob.glob` of the channel-`i`
pattern; the fuel argument is the remaining range and `i` the current index. -/
def probeChannels (glob : Nat → List String) : Nat → Nat → List (List String)
  | 0, _ => []
  | fuel + 1, i =>
      let subpaths := sortStr (glob i)
      if subpaths = [] then [] else subpaths :: probeChannels glob fuel (i + 1)

/-- `load_stack(top_dir)`: probe channels `0..99`; if no channel was found,
raise `RuntimeError("No files found in {top_dir}")`; otherwise return the
per-channel lists of tile files (each tile standing for `tif.imread` of its
path, decoding being external I/O). -/
def load_stack (top_dir : String) (glob : Nat → List String) :
    Except String (List (List String)) :=
  let paths := probeChannels glob 100 0
  if paths = [] then Except.error ("No files found in " ++ top_dir) else Except.ok paths

/- Helper lemmas -/

theorem sortStr_eq_nil_iff (l : List String) : sortStr l = [] ↔ l = [] := by
  constructor
  · intro h
    have hlen := List.length_insertionSort (fun a b : String => a ≤ b) l
    rw [sortStr] at h
    rw [h] at hlen
    exact List.eq_nil_of_length_eq_zero hlen.symm
  · intro h
    rw [h]
    rfl

theorem probeChannels_eq (glob : Nat → List String) :
    ∀ (jstop f i : Nat), jstop ≤ f → (∀ k, k < jstop → glob (i + k) ≠ []) →
      glob (i + jstop) = [] →
      probeChannels glob f i = (List.range jstop).map (fun k => sortStr (glob (i + k))) := by
  intro jstop
  induction jstop with
  | zero =>
      intro f i _ _ hstop
      cases f with
      | zero => rfl
      | succ f =>
          rw [Nat.add_zero] at hstop
          simp [probeChannels, hstop, sortStr]
  | succ j ih =>
      intro f i hle hne hstop
      cases f with
      | zero => omega
      | succ f =>
          have h0 : glob (i + 0) ≠ [] := hne 0 (Nat.succ_pos j)
          rw [Nat.add_zero] at h0
          have hsort : sortStr (glob i) ≠ [] := fun h => h0 ((sortStr_eq_nil_iff _).mp h)
          have hrec : probeChannels glob f (i + 1) =
              (List.range j).map (fun k => sortStr (glob (i + 1 + k))) := by
            refine ih f (i + 1) (Nat.le_of_succ_le_succ hle) ?_ ?_
            · intro k hk
              have := hne (k + 1) (Nat.succ_lt_succ hk)
              have harith : i + (k + 1) = i + 1 + k := by omega
              rwa [harith] at this
            · have harith : i + (j + 1) = i + 1 + j := by omega
              rwa [harith] at hstop
          rw [probeChannels]
          rw [if_neg hsort, hrec, List.range_succ_eq_map]
          simp only [List.map_cons, List.map_map, Nat.add_zero]
          congr 1
          apply List.map_congr_left
          intro k _
          have harith : i + 1 + k = i + Nat.succ k := by omega
          simp only [Function.comp_apply, harith]

/- C2: calc_extent anchors and spans -/

/-- Claim C2: `calc_extent` returns `(left, right, bottom, top)` with
`top = y0 + (ny // 2) * pixel_size` and `left = x0 + (nx // 2) * pixel_size`
(the half-tile correction of tile0's recorded center, `//` being floor
division), and with `top - bottom = dy * ny * pixel_size` and
`left - right = dx * nx * pixel_size` (bottom and right obtained by
subtracting the total physical span from top and left). -/
theorem calc_extent_anchor_and_span (y0 x0 p : ℚ) (ny nx dy dx : Nat) :
    (calc_extent (y0, x0) (ny, nx) (dy, dx) p).2.2.2 = y0 + (ny / 2 : Nat) * p ∧
    (calc_extent (y0, x0) (ny, nx) (dy, dx) p).1 = x0 + (nx / 2 : Nat) * p ∧
    (calc_extent (y0, x0) (ny, nx) (dy, dx) p).2.2.2 -
        (calc_extent (y0, x0) (ny, nx) (dy, dx) p).2.2.1 = (dy : ℚ) * (ny : ℚ) * p ∧
    (calc_extent (y0, x0) (ny, nx) (dy, dx) p).1 -
        (calc_extent (y0, x0) (ny, nx) (dy, dx) p).2.1 = (dx : ℚ) * (nx : ℚ) * p := by
  refine ⟨rfl, rfl, ?_, ?_⟩ <;> (simp only [calc_extent]; push_cast; ring)

/- C8: calc_extent is linear in pixel_size -/

/-- Claim C8: Doubling `pixel_size` exactly doubles both physical spans of the
extent, and the doubled extent's top and left still equal tile0's center
coordinate plus the half-tile offset evaluated at the doubled pixel size. -/
theorem calc_extent_linear_in_pixel_size (y0 x0 p : ℚ) (ny nx dy dx : Nat) :
    (calc_extent (y0, x0) (ny, nx) (dy, dx) (2 * p)).1 -
        (calc_extent (y0, x0) (ny, nx) (dy, dx) (2 * p)).2.1 =
      2 * ((calc_extent (y0, x0) (ny, nx) (dy, dx) p).1 -
        (calc_extent (y0, x0) (ny, nx) (dy, dx) p).2.1) ∧
    (calc_extent (y0, x0) (ny, nx) (dy, dx) (2 * p)).2.2.2 -
        (calc_extent (y0, x0) (ny, nx) (dy, dx) (2 * p)).2.2.1 =
      2 * ((calc_extent (y0, x0) (ny, nx) (dy, dx) p).2.2.2 -
        (calc_extent (y0, x0) (ny, nx) (dy, dx) p).2.2.1) ∧
    (calc_extent (y0, x0) (ny, nx) (dy, dx) (2 * p)).2.2.2 =
      y0 + (ny / 2 : Nat) * (2 * p) ∧
    (calc_extent (y0, x0) (ny, nx) (dy, dx) (2 * p)).1 =
      x0 + (nx / 2 : Nat) * (2 * p) := by
  refine ⟨?_, ?_, rfl, rfl⟩ <;> (simp only [calc_extent]; ring)

/- C10: the extent is a non-empty box with left > right, top > bottom -/

/-- Claim C10: For strictly positive tile shape, montage shape and pixel size,
`calc_extent` returns `right < left` and `bottom < top`: the extent consumed
by the containment test always describes a non-empty box with `left` the
larger x value and `top` the larger y value. -/
theorem calc_extent_ordered (y0 x0 p : ℚ) (ny nx dy dx : Nat)
    (hny : 0 < ny) (hnx : 0 < nx) (hdy : 0 < dy) (hdx : 0 < dx) (hp : 0 < p) :
    (calc_extent (y0, x0) (ny, nx) (dy, dx) p).2.1 <
        (calc_extent (y0, x0) (ny, nx) (dy, dx) p).1 ∧
    (calc_extent (y0, x0) (ny, nx) (dy, dx) p).2.2.1 <
        (calc_extent (y0, x0) (ny, nx) (dy, dx) p).2.2.2 := by
  simp only [calc_extent]
  constructor
  · have hpos : (0 : ℚ) < ((nx * dx : Nat) : ℚ) * p := by
      apply mul_pos _ hp
      exact_mod_cast Nat.mul_pos hnx hdx
    linarith
  · have hpos : (0 : ℚ) < ((ny * dy : Nat) : ℚ) * p := by
      apply mul_pos _ hp
      exact_mod_cast Nat.mul_pos hny hdy
    linarith

/-- Witness for C10 at `y0 = 100`, `x0 = 200`, tile `(512, 512)`, montage
`(2, 3)`, `pixel_size = 13/100`. -/
theorem calc_extent_ordered_witness :
    (calc_extent (100, 200) (512, 512) (2, 3) (13/100)).2.1 <
        (calc_extent (100, 200) (512, 512) (2, 3) (13/100)).1 ∧
    (calc_extent (100, 200) (512, 512) (2, 3) (13/100)).2.2.1 <
        (calc_extent (100, 200) (512, 512) (2, 3) (13/100)).2.2.2 :=
  calc_extent_ordered 100 200 (13/100) 512 512 2 3 (by decide) (by decide) (by decide)
    (by decide) (by norm_num)

/- C1: montage places each tile at its grid sub-block -/

/-- Claim C1: For a stack of shape `(c, N, ny, nx)` and montage shape `(dy, dx)`
with `dy * dx = N`, and all `ch < c`, `r < dy`, `co < dx`, `i < ny`, `j < nx`,
the assembled montage satisfies
`montage(stack)[ch][r*ny + i][co*nx + j] = stack[ch][r*dx + co][i][j]`:
tile number `r*dx + co` of each channel lands exactly at the `(r, co)`
sub-block of the output, with no transposition. -/
theorem montage_tile_placement (c N ny nx dy dx : Nat) (d : Nat → ℤ)
    (hN : dy * dx = N) (ch r co i j : Nat)
    (hch : ch < c) (hr : r < dy) (hco : co < dx) (hi : i < ny) (hj : j < nx) :
    ∃ A : NDArray, montage ⟨[c, N, ny, nx], d⟩ (dy, dx) = Except.ok A ∧
      A.data (idx3 (dy * ny) (dx * nx) ch (r * ny + i) (co * nx + j)) =
        d (idx4 N ny nx ch (r * dx + co) i j) := by
  have hnx : 0 < nx := Nat.lt_of_le_of_lt (Nat.zero_le j) hj
  have hny : 0 < ny := Nat.lt_of_le_of_lt (Nat.zero_le i) hi
  have hdx : 0 < dx := Nat.lt_of_le_of_lt (Nat.zero_le co) hco
  have hdy : 0 < dy := Nat.lt_of_le_of_lt (Nat.zero_le r) hr
  refine ⟨⟨[c, dy * ny, dx * nx], rollaxis_2_4 dy dx ny nx d⟩, ?_, ?_⟩
  · simp [montage, hN]
  · set k0 := idx3 (dy * ny) (dx * nx) ch (r * ny + i) (co * nx + j) with hk0
    have e0 : k0 = nx * ((ch * (dy * ny) + (r * ny + i)) * dx + co) + j := by
      rw [hk0]; simp only [idx3]; ring
    have c1 : k0 % nx = j := by
      rw [e0, Nat.mul_add_mod, Nat.mod_eq_of_lt hj]
    have d0 : k0 / nx = (ch * (dy * ny) + (r * ny + i)) * dx + co := by
      rw [e0, Nat.mul_add_div hnx, Nat.div_eq_of_lt hj, Nat.add_zero]
    have e1 : (ch * (dy * ny) + (r * ny + i)) * dx + co =
        dx * (ch * (dy * ny) + (r * ny + i)) + co := by ring
    have c2 : k0 / nx % dx = co := by
      rw [d0, e1, Nat.mul_add_mod, Nat.mod_eq_of_lt hco]
    have d1 : k0 / nx / dx = ch * (dy * ny) + (r * ny + i) := by
      rw [d0, e1, Nat.mul_add_div hdx, Nat.div_eq_of_lt hco, Nat.add_zero]
    have e2 : ch * (dy * ny) + (r * ny + i) = ny * (ch * dy + r) + i := by ring
    have c3 : k0 / nx / dx % ny = i := by
      rw [d1, e2, Nat.mul_add_mod, Nat.mod_eq_of_lt hi]
    have d2 : k0 / nx / dx / ny = ch * dy + r := by
      rw [d1, e2, Nat.mul_add_div hny, Nat.div_eq_of_lt hi, Nat.add_zero]
    have e3 : ch * dy + r = dy * ch + r := by ring
    have c4 : k0 / nx / dx / ny % dy = r := by
      rw [d2, e3, Nat.mul_add_mod, Nat.mod_eq_of_lt hr]
    have c5 : k0 / nx / dx / ny / dy = ch := by
      rw [d2, e3, Nat.mul_add_div hdy, Nat.div_eq_of_lt hr, Nat.add_zero]
    show rollaxis_2_4 dy dx ny nx d k0 = d (idx4 N ny nx ch (r * dx + co) i j)
    simp only [rollaxis_2_4]
    rw [c1, c2, c3, c4, c5]
    congr 1
    subst hN
    simp only [idx5, idx4]
    ring

/-- Witness for C1: a `(1, 4, 2, 3)` stack assembled as a `(2, 2)` montage,
checked at channel 0, grid cell `(1, 1)`, pixel `(1, 2)`. -/
theorem montage_tile_placement_witness :
    ∃ A : NDArray, montage ⟨[1, 4, 2, 3], fun k => (k : ℤ)⟩ (2, 2) = Except.ok A ∧
      A.data (idx3 (2 * 2) (2 * 3) 0 (1 * 2 + 1) (1 * 3 + 2)) =
        (fun k => (k : ℤ)) (idx4 4 2 3 0 (1 * 2 + 1) 1 2) :=
  montage_tile_placement 1 4 2 3 2 2 (fun k => (k : ℤ)) (by decide) 0 1 1 1 2
    (by decide) (by decide) (by decide) (by decide) (by decide)

/- C4: montage output shape -/

/-- Claim C4: For a stack of shape `(c, N, ny, nx)` and montage shape `(dy, dx)`
with `dy * dx = N`, `montage` succeeds and returns an array of shape
`(c, dy*ny, dx*nx)`. -/
theorem montage_output_shape (c N ny nx dy dx : Nat) (d : Nat → ℤ)
    (hN : dy * dx = N) :
    ∃ A : NDArray, montage ⟨[c, N, ny, nx], d⟩ (dy, dx) = Except.ok A ∧
      A.shape = [c, dy * ny, dx * nx] := by
  refine ⟨⟨[c, dy * ny, dx * nx], rollaxis_2_4 dy dx ny nx d⟩, ?_, rfl⟩
  simp [montage, hN]

/-- Witness for C4: a `(2, 6, 4, 5)` stack assembled as a `(2, 3)` montage has
shape `(2, 8, 15)`. -/
theorem montage_output_shape_witness :
    ∃ A : NDArray, montage ⟨[2, 6, 4, 5], fun k => (k : ℤ)⟩ (2, 3) = Except.ok A ∧
      A.shape = [2, 2 * 4, 3 * 5] :=
  montage_output_shape 2 6 4 5 2 3 (fun k => (k : ℤ)) (by decide)

/- C5: montage rejects a mismatched shape -/

/-- Claim C5: For a stack with `N` tiles and a montage shape `(dy, dx)` with
`dy * dx ≠ N`, `montage` fails with the assertion error whose message names
the actual tile count `N` and the montage dimensions `dy` and `dx`, and no
montage image is produced. -/
theorem montage_shape_mismatch (c N ny nx dy dx : Nat) (d : Nat → ℤ)
    (hN : dy * dx ≠ N) :
    montage ⟨[c, N, ny, nx], d⟩ (dy, dx) = Except.error (montageMsg N dy dx) ∧
    (∃ u v, montageMsg N dy dx = u ++ toString N ++ v) ∧
    (∃ u v, montageMsg N dy dx = u ++ toString dy ++ v) ∧
    (∃ u v, montageMsg N dy dx = u ++ toString dx ++ v) := by
  refine ⟨by simp [montage, hN], ?_, ?_, ?_⟩
  · exact ⟨"Number of tiles, ",
      ", doesn't match montage dimensions (" ++ toString dy ++ ", " ++ toString dx ++ ")",
      by simp [montageMsg, String.append_assoc]⟩
  · exact ⟨"Number of tiles, " ++ toString N ++ ", doesn't match montage dimensions (",
      ", " ++ toString dx ++ ")", by simp [montageMsg, String.append_assoc]⟩
  · exact ⟨"Number of tiles, " ++ toString N ++ ", doesn't match montage dimensions (" ++
        toString dy ++ ", ", ")", by simp [montageMsg, String.append_assoc]⟩

/-- Witness for C5: 5 tiles cannot be arranged as a `(2, 3)` montage. -/
theorem montage_shape_mismatch_witness :
    montage ⟨[1, 5, 4, 4], fun k => (k : ℤ)⟩ (2, 3) = Except.error (montageMsg 5 2 3) ∧
    (∃ u v, montageMsg 5 2 3 = u ++ toString 5 ++ v) ∧
    (∃ u v, montageMsg 5 2 3 = u ++ toString 2 ++ v) ∧
    (∃ u v, montageMsg 5 2 3 = u ++ toString 3 ++ v) :=
  montage_shape_mismatch 1 5 4 4 2 3 (fun k => (k : ℤ)) (by decide)

/- C3: a marker and annotation are emitted iff the point is contained -/

/-- Claim C3: The overlay stage converts a stored `(y_mm, x_mm)` location to
micrometers as `y = 1000*y_mm`, `x = 1000*x_mm` and emits a marker and
annotation for it if and only if `right ≤ x ≤ left` and `bottom ≤ y ≤ top`;
a location failing the test yields `none` — no error and no output. -/
theorem overlay_emits_iff_contained (L R B T s ymm xmm : ℚ) :
    ((∃ m, overlay_location (L, R, B, T) s (ymm, xmm) = some m) ↔
      (R ≤ 1000 * xmm ∧ 1000 * xmm ≤ L ∧ B ≤ 1000 * ymm ∧ 1000 * ymm ≤ T)) ∧
    (¬ (R ≤ 1000 * xmm ∧ 1000 * xmm ≤ L ∧ B ≤ 1000 * ymm ∧ 1000 * ymm ≤ T) →
      overlay_location (L, R, B, T) s (ymm, xmm) = none) := by
  have hiff : inFrame (L, R, B, T) (ymm * 1000) (xmm * 1000) = true ↔
      (R ≤ 1000 * xmm ∧ 1000 * xmm ≤ L ∧ B ≤ 1000 * ymm ∧ 1000 * ymm ≤ T) := by
    simp only [inFrame, decide_eq_true_eq, ge_iff_le]
    constructor
    · rintro ⟨h1, h2, h3, h4⟩
      exact ⟨by linarith, by linarith, by linarith, by linarith⟩
    · rintro ⟨h1, h2, h3, h4⟩
      exact ⟨by linarith, by linarith, by linarith, by linarith⟩
  constructor
  · constructor
    · rintro ⟨m, hm⟩
      simp only [overlay_location] at hm
      by_cases hin : inFrame (L, R, B, T) (ymm * 1000) (xmm * 1000) = true
      · exact hiff.mp hin
      · rw [if_neg hin] at hm
        exact absurd hm (by simp)
    · intro hc
      refine ⟨(make_rec (ymm * 1000) (xmm * 1000) (512 * (13/100)) (512 * (13/100))
          (max 2 (20 * s)),
        ⟨20, (xmm * 1000, ymm * 1000),
         (xmm * 1000, ymm * 1000 + 512 * (13/100) / 2 * (13/10)), max 12 (120 * s)⟩), ?_⟩
      simp only [overlay_location]
      rw [if_pos (hiff.mpr hc)]
  · intro hc
    have hin : ¬ inFrame (L, R, B, T) (ymm * 1000) (xmm * 1000) = true :=
      fun h => hc (hiff.mp h)
    simp only [overlay_location]
    rw [if_neg hin]

/-- Witness for C3 at the extent `(left, right, bottom, top) = (100, 0, 0, 100)`
and the stored point `(0.05 mm, 0.03 mm)`. -/
theorem overlay_emits_iff_contained_witness :
    ((∃ m, overlay_location (100, 0, 0, 100) 1 (5/100, 3/100) = some m) ↔
      ((0:ℚ) ≤ (1000:ℚ) * (3/100) ∧ (1000:ℚ) * (3/100) ≤ 100 ∧
        (0:ℚ) ≤ (1000:ℚ) * (5/100) ∧ (1000:ℚ) * (5/100) ≤ 100)) ∧
    (¬ ((0:ℚ) ≤ (1000:ℚ) * (3/100) ∧ (1000:ℚ) * (3/100) ≤ 100 ∧
        (0:ℚ) ≤ (1000:ℚ) * (5/100) ∧ (1000:ℚ) * (5/100) ≤ 100) →
      overlay_location (100, 0, 0, 100) 1 (5/100, 3/100) = none) :=
  overlay_emits_iff_contained 100 0 0 100 1 (5/100) (3/100)

/- C6: the containment test is boundary-inclusive but order-sensitive -/

/-- Claim C6, counterexample: The inclusion decision is *not* the same when the
left/right extent values are supplied in increasing rather than decreasing
numeric order: with the same two boundary values `{0, 10}` and the same point
`(y, x) = (5, 5)`, the extent `(10, 0, 0, 10)` includes the point while the
order-swapped extent `(0, 10, 0, 10)` excludes it — the code evaluates
`left ≥ x ≥ right` literally rather than "between the two values". -/
theorem inFrame_order_asymmetry :
    inFrame (10, 0, 0, 10) 5 5 = true ∧ inFrame (0, 10, 0, 10) 5 5 = false := by
  decide

/-- Claim C6, amended: Provided the extent is ordered as `calc_extent` produces
it (`right ≤ left`, `bottom ≤ top`), the containment test is inclusive at
every boundary and excludes any point beyond a boundary by `ε > 0`; the test
evaluates `left ≥ x ≥ right` and `top ≥ y ≥ bottom` literally, so it is
order-sensitive, not "between the two values". -/
theorem inFrame_boundary_inclusive (L R B T y ε : ℚ) (hLR : R ≤ L) (hBT : B ≤ T)
    (hyB : B ≤ y) (hyT : y ≤ T) (hε : 0 < ε) :
    inFrame (L, R, B, T) y L = true ∧
    inFrame (L, R, B, T) y R = true ∧
    inFrame (L, R, B, T) y (L + ε) = false ∧
    inFrame (L, R, B, T) y (R - ε) = false ∧
    inFrame (L, R, B, T) T L = true ∧
    inFrame (L, R, B, T) B L = true ∧
    inFrame (L, R, B, T) (T + ε) L = false ∧
    inFrame (L, R, B, T) (B - ε) L = false := by
  refine ⟨?_, ?_, ?_, ?_, ?_, ?_, ?_, ?_⟩ <;>
    simp only [inFrame, decide_eq_true_eq, decide_eq_false_iff_not, ge_iff_le]
  · exact ⟨le_refl L, hLR, hyT, hyB⟩
  · exact ⟨hLR, le_refl R, hyT, hyB⟩
  · rintro ⟨h, -⟩; linarith
  · rintro ⟨-, h, -⟩; linarith
  · exact ⟨le_refl L, hLR, le_refl T, hBT⟩
  · exact ⟨le_refl L, hLR, hBT, le_refl B⟩
  · rintro ⟨-, -, h, -⟩; linarith
  · rintro ⟨-, -, -, h⟩; linarith

/-- Witness for the amended C6 at the extent `(10, 0, 0, 10)`, `y = 5`,
`ε = 1`. -/
theorem inFrame_boundary_inclusive_witness :
    inFrame (10, 0, 0, 10) 5 10 = true ∧
    inFrame (10, 0, 0, 10) 5 0 = true ∧
    inFrame (10, 0, 0, 10) 5 (10 + 1) = false ∧
    inFrame (10, 0, 0, 10) 5 (0 - 1) = false ∧
    inFrame (10, 0, 0, 10) 10 10 = true ∧
    inFrame (10, 0, 0, 10) 0 10 = true ∧
    inFrame (10, 0, 0, 10) (10 + 1) 10 = false ∧
    inFrame (10, 0, 0, 10) (0 - 1) 10 = false :=
  inFrame_boundary_inclusive 10 0 0 10 5 1 (by decide) (by decide) (by decide)
    (by decide) (by decide)

/- C7: marker geometry, annotation anchor and wrap width -/

/-- Claim C7: Every emitted marker is a square of fixed side
`512 * 0.13` micrometers (`512 ×` the pipeline's pixel size `0.13`, the
default of `calc_extent`, hard-coded in `make_fig`) centered at the converted
point: its anchor corner is `(x - side/2, y - side/2)` and its width and
height equal the side; the annotation is data-anchored at `(x, y)` with text
anchor `(x, y + 1.3 * (side/2))` and the wrap width passed to `textwrap.fill`
is 20 characters. -/
theorem overlay_marker_geometry (L R B T s ymm xmm : ℚ) (rect : Rectangle) (ann : Annot)
    (h : overlay_location (L, R, B, T) s (ymm, xmm) = some (rect, ann)) :
    rect.width = 512 * (13/100) ∧
    rect.height = 512 * (13/100) ∧
    rect.xy = (xmm * 1000 - 512 * (13/100) / 2, ymm * 1000 - 512 * (13/100) / 2) ∧
    ann.xy = (xmm * 1000, ymm * 1000) ∧
    ann.xytext = (xmm * 1000, ymm * 1000 + (13/10) * (512 * (13/100) / 2)) ∧
    ann.wrap_width = 20 := by
  simp only [overlay_location] at h
  by_cases hin : inFrame (L, R, B, T) (ymm * 1000) (xmm * 1000) = true
  · rw [if_pos hin] at h
    simp only [Option.some.injEq, Prod.mk.injEq] at h
    obtain ⟨hrect, hann⟩ := h
    subst hrect
    subst hann
    refine ⟨rfl, rfl, rfl, rfl, ?_, rfl⟩
    simp only [make_rec]
    rw [Prod.ext_iff]
    exact ⟨rfl, by ring⟩
  · rw [if_neg hin] at h
    exact absurd h (by simp)

/-- Witness for C7: the stored point `(50 mm, 30 mm)` inside the extent
`(100000, 0, 0, 100000)` micrometers, with `scalefactor = 1`. -/
theorem overlay_marker_geometry_witness :
    (make_rec ((50:ℚ) * 1000) ((30:ℚ) * 1000) (512 * (13/100)) (512 * (13/100))
        (max 2 (20 * 1))).width = 512 * (13/100) ∧
    (make_rec ((50:ℚ) * 1000) ((30:ℚ) * 1000) (512 * (13/100)) (512 * (13/100))
        (max 2 (20 * 1))).height = 512 * (13/100) ∧
    (make_rec ((50:ℚ) * 1000) ((30:ℚ) * 1000) (512 * (13/100)) (512 * (13/100))
        (max 2 (20 * 1))).xy =
      ((30:ℚ) * 1000 - 512 * (13/100) / 2, (50:ℚ) * 1000 - 512 * (13/100) / 2) ∧
    (Annot.mk 20 ((30:ℚ) * 1000, (50:ℚ) * 1000)
        ((30:ℚ) * 1000, (50:ℚ) * 1000 + 512 * (13/100) / 2 * (13/10))
        (max 12 (120 * 1))).xy = ((30:ℚ) * 1000, (50:ℚ) * 1000) ∧
    (Annot.mk 20 ((30:ℚ) * 1000, (50:ℚ) * 1000)
        ((30:ℚ) * 1000, (50:ℚ) * 1000 + 512 * (13/100) / 2 * (13/10))
        (max 12 (120 * 1))).xytext =
      ((30:ℚ) * 1000, (50:ℚ) * 1000 + (13/10) * (512 * (13/100) / 2)) ∧
    (Annot.mk 20 ((30:ℚ) * 1000, (50:ℚ) * 1000)
        ((30:ℚ) * 1000, (50:ℚ) * 1000 + 512 * (13/100) / 2 * (13/10))
        (max 12 (120 * 1))).wrap_width = 20 :=
  overlay_marker_geometry 100000 0 0 100000 1 50 30
    (make_rec ((50:ℚ) * 1000) ((30:ℚ) * 1000) (512 * (13/100)) (512 * (13/100))
      (max 2 (20 * 1)))
    (Annot.mk 20 ((30:ℚ) * 1000, (50:ℚ) * 1000)
      ((30:ℚ) * 1000, (50:ℚ) * 1000 + 512 * (13/100) / 2 * (13/10))
      (max 12 (120 * 1)))
    (by
      simp only [overlay_location]
      rw [if_pos (show inFrame (100000, 0, 0, 100000) ((50:ℚ) * 1000) ((30:ℚ) * 1000) = true
        by norm_num [inFrame])])

/- C9: load_stack channel probing -/

/-- Claim C9: `load_stack` probes channel indices `0, 1, 2, …` in order with a
fixed bound of 100 and stops at the first index whose tile-file pattern
matches zero files.  It raises the not-found error naming the directory
exactly when channel index 0 has no matching files; on success the channel
count equals the first probed index with zero matches, each channel holding
its files in lexicographically sorted order. -/
theorem load_stack_channels (top_dir : String) (glob : Nat → List String) (istop : Nat)
    (hle : istop ≤ 100) (hstop : glob istop = []) (hne : ∀ k, k < istop → glob k ≠ []) :
    load_stack top_dir glob =
      (if istop = 0 then Except.error ("No files found in " ++ top_dir)
       else Except.ok ((List.range istop).map (fun k => sortStr (glob k)))) ∧
    ((List.range istop).map (fun k => sortStr (glob k))).length = istop := by
  have hp : probeChannels glob 100 0 =
      (List.range istop).map (fun k => sortStr (glob k)) := by
    have h := probeChannels_eq glob istop 100 0 hle
      (fun k hk => by simpa using hne k hk) (by simpa using hstop)
    simpa using h
  refine ⟨?_, by simp⟩
  by_cases h0 : istop = 0
  · subst h0
    simp only [load_stack, hp]
    simp
  · have hnn : (List.range istop).map (fun k => sortStr (glob k)) ≠ [] := by
      simp [List.map_eq_nil_iff, List.range_eq_nil, h0]
    simp only [load_stack, hp]
    rw [if_neg hnn, if_neg h0]

/-- Witness for C9: a directory whose channel-0 pattern matches two files and
whose channel-1 pattern matches none. -/
theorem load_stack_channels_witness :
    load_stack "Montage/" (fun k => if k = 0 then ["b", "a"] else []) =
      (if 1 = 0 then Except.error ("No files found in " ++ "Montage/")
       else Except.ok ((List.range 1).map
         (fun k => sortStr ((fun k => if k = 0 then ["b", "a"] else []) k)))) ∧
    ((List.range 1).map
        (fun k => sortStr ((fun k => if k = 0 then ["b", "a"] else []) k))).length = 1 :=
  load_stack_channels "Montage/" (fun k => if k = 0 then ["b", "a"] else []) 1
    (by decide) (by decide) (by decide)
